import Mathlib

/-!
Verification of the chunk face-culling renderer in `src/main.cpp`
(OpenGL-Cube).  The occupancy grid, the per-face visibility culler, the
frustum test and the camera input callbacks are embedded shallowly:
machine floats become rationals, the fixed-size C arrays become total
functions guarded by the chunk dimension, and the per-frame loops become
list folds.
-/

/-- A block face, one per axis direction.  The culler in `main` tests the
faces in the source order -X, +X, -Y, +Y, -Z, +Z. -/
inductive Face where
  | negX | posX | negY | posY | negZ | posZ
deriving DecidableEq, Repr

/-- Occupancy of a chunk: `c x y z = true` means the cell holds a solid
block (`chunk[x][y][z] == 1` in the source), `false` means air. -/
abbrev Chunk := Nat → Nat → Nat → Bool

/-- The hollow-shell generator (main.cpp lines 328-342): a cell is solid
iff some coordinate equals `0` or `chunkSize - 1`. -/
def genChunk (chunkSize : Nat) : Chunk := fun x y z =>
  x == 0 || x == chunkSize - 1 ||
  y == 0 || y == chunkSize - 1 ||
  z == 0 || z == chunkSize - 1

/-- The per-face visibility test of the culler (main.cpp lines 372-406):
a face is emitted when the block sits on the chunk boundary on that side
or the neighbouring cell is air. -/
def faceExposed (chunkSize : Nat) (c : Chunk) (x y z : Nat) : Face → Bool
  | .negX => x == 0 || !c (x - 1) y z
  | .posX => x == chunkSize - 1 || !c (x + 1) y z
  | .negY => y == 0 || !c x (y - 1) z
  | .posY => y == chunkSize - 1 || !c x (y + 1) z
  | .negZ => z == 0 || !c x y (z - 1)
  | .posZ => z == chunkSize - 1 || !c x y (z + 1)

/-- The fixed order in which `main` tests the six faces of a block. -/
def faceOrder : List Face := [.negX, .posX, .negY, .posY, .negZ, .posZ]

/-- The faces emitted for the block at `(x,y,z)`, in the order the six
`if` statements of the culler run (main.cpp lines 372-406). -/
def facesOf (chunkSize : Nat) (c : Chunk) (x y z : Nat) : List Face :=
  (if x == 0 || !c (x - 1) y z then [Face.negX] else []) ++
  (if x == chunkSize - 1 || !c (x + 1) y z then [Face.posX] else []) ++
  (if y == 0 || !c x (y - 1) z then [Face.negY] else []) ++
  (if y == chunkSize - 1 || !c x (y + 1) z then [Face.posY] else []) ++
  (if z == 0 || !c x y (z - 1) then [Face.negZ] else []) ++
  (if z == chunkSize - 1 || !c x y (z + 1) then [Face.posZ] else [])

/-- All faces the culler emits for the whole chunk: the triple loop of
main.cpp lines 361-411, skipping air cells (`continue` on line 364). -/
def cullChunk (chunkSize : Nat) (c : Chunk) : List (Nat × Nat × Nat × Face) :=
  (List.range chunkSize).flatMap fun x =>
    (List.range chunkSize).flatMap fun y =>
      (List.range chunkSize).flatMap fun z =>
        if c x y z then (facesOf chunkSize c x y z).map fun f => (x, y, z, f)
        else []

/-- Integer coordinates of the neighbour a face points at. -/
def neighborCoord (x y z : Nat) : Face → Int × Int × Int
  | .negX => ((x : Int) - 1, y, z)
  | .posX => ((x : Int) + 1, y, z)
  | .negY => (x, (y : Int) - 1, z)
  | .posY => (x, (y : Int) + 1, z)
  | .negZ => (x, y, (z : Int) - 1)
  | .posZ => (x, y, (z : Int) + 1)

/-- A neighbour coordinate lies outside the chunk `[0, S-1]^3`. -/
def neighborOOB (chunkSize : Nat) (n : Int × Int × Int) : Prop :=
  ¬ (0 ≤ n.1 ∧ n.1 ≤ (chunkSize : Int) - 1 ∧
     0 ≤ n.2.1 ∧ n.2.1 ≤ (chunkSize : Int) - 1 ∧
     0 ≤ n.2.2 ∧ n.2.2 ≤ (chunkSize : Int) - 1)

/-- Read the occupancy at an integer coordinate (meaningful in bounds). -/
def cellAt (c : Chunk) (n : Int × Int × Int) : Bool :=
  c n.1.toNat n.2.1.toNat n.2.2.toNat

/-- The spec's exposure rule, stated over integer neighbour coordinates:
the neighbour falls outside `[0, S-1]` on some axis, or the neighbour
cell is air.  Used to compare the culler against the specification. -/
def exposedSpec (chunkSize : Nat) (c : Chunk) (x y z : Nat) (f : Face) : Prop :=
  neighborOOB chunkSize (neighborCoord x y z f) ∨
    cellAt c (neighborCoord x y z f) = false

lemma facesOf_eq_filter (S : Nat) (c : Chunk) (x y z : Nat) :
    facesOf S c x y z = faceOrder.filter (faceExposed S c x y z) := by
  simp only [facesOf, faceOrder, faceExposed, List.filter]
  cases hx0 : x == 0 || !c (x - 1) y z <;>
    cases hx1 : x == S - 1 || !c (x + 1) y z <;>
      cases hy0 : y == 0 || !c x (y - 1) z <;>
        cases hy1 : y == S - 1 || !c x (y + 1) z <;>
          cases hz0 : z == 0 || !c x y (z - 1) <;>
            cases hz1 : z == S - 1 || !c x y (z + 1) <;> simp

lemma mem_facesOf {S : Nat} {c : Chunk} {x y z : Nat} {f : Face} :
    f ∈ facesOf S c x y z ↔ faceExposed S c x y z f = true := by
  rw [facesOf_eq_filter, List.mem_filter]
  cases f <;> simp [faceOrder]

lemma mem_cullChunk {S : Nat} {c : Chunk} {x y z : Nat} {f : Face} :
    (x, y, z, f) ∈ cullChunk S c ↔
      x < S ∧ y < S ∧ z < S ∧ c x y z = true ∧
        faceExposed S c x y z f = true := by
  simp only [cullChunk, List.mem_flatMap, List.mem_range]
  constructor
  · rintro ⟨a, ha, b, hb, d, hd, hmem⟩
    by_cases hc : c a b d = true
    · rw [if_pos hc, List.mem_map] at hmem
      obtain ⟨g, hg, heq⟩ := hmem
      simp only [Prod.mk.injEq] at heq
      obtain ⟨rfl, rfl, rfl, rfl⟩ := heq
      exact ⟨ha, hb, hd, hc, mem_facesOf.mp hg⟩
    · rw [if_neg hc] at hmem
      exact absurd hmem (List.not_mem_nil _)
  · rintro ⟨hx, hy, hz, hc, hf⟩
    refine ⟨x, hx, y, hy, z, hz, ?_⟩
    rw [if_pos hc, List.mem_map]
    exact ⟨f, mem_facesOf.mpr hf, rfl⟩

lemma faceExposed_iff_exposedSpec {S : Nat} {c : Chunk} {x y z : Nat}
    (hx : x < S) (hy : y < S) (hz : z < S) (f : Face) :
    faceExposed S c x y z f = true ↔ exposedSpec S c x y z f := by
  cases f <;>
    simp only [faceExposed, exposedSpec, neighborOOB, cellAt, neighborCoord,
      Bool.or_eq_true, beq_iff_eq, Bool.not_eq_true'] <;>
    [rw [show ((x : Int) - 1).toNat = x - 1 from by omega,
         show ((y : Int)).toNat = y from by omega,
         show ((z : Int)).toNat = z from by omega];
     rw [show ((x : Int) + 1).toNat = x + 1 from by omega,
         show ((y : Int)).toNat = y from by omega,
         show ((z : Int)).toNat = z from by omega];
     rw [show ((x : Int)).toNat = x from by omega,
         show ((y : Int) - 1).toNat = y - 1 from by omega,
         show ((z : Int)).toNat = z from by omega];
     rw [show ((x : Int)).toNat = x from by omega,
         show ((y : Int) + 1).toNat = y + 1 from by omega,
         show ((z : Int)).toNat = z from by omega];
     rw [show ((x : Int)).toNat = x from by omega,
         show ((y : Int)).toNat = y from by omega,
         show ((z : Int) - 1).toNat = z - 1 from by omega];
     rw [show ((x : Int)).toNat = x from by omega,
         show ((y : Int)).toNat = y from by omega,
         show ((z : Int) + 1).toNat = z + 1 from by omega]] <;>
    (constructor <;> rintro (h | h))
  all_goals first
    | exact Or.inl (by omega)
    | exact Or.inr h

/-- Number of solid cells the generator produces in an `S×S×S` grid. -/
def solidCount (S : Nat) : Nat :=
  ((Finset.range S ×ˢ Finset.range S ×ˢ Finset.range S).filter
    (fun p => genChunk S p.1 p.2.1 p.2.2 = true)).card

lemma filter_solid_eq_sdiff (S : Nat) :
    ((Finset.range S ×ˢ Finset.range S ×ˢ Finset.range S).filter
      (fun p => genChunk S p.1 p.2.1 p.2.2 = true)) =
    (Finset.range S ×ˢ Finset.range S ×ˢ Finset.range S) \
      (Finset.Ioo 0 (S - 1) ×ˢ Finset.Ioo 0 (S - 1) ×ˢ Finset.Ioo 0 (S - 1)) := by
  ext ⟨a, b, d⟩
  simp only [Finset.mem_filter, Finset.mem_sdiff, Finset.mem_product,
    Finset.mem_range, Finset.mem_Ioo, genChunk, Bool.or_eq_true, beq_iff_eq]
  omega

lemma solidCount_eq (S : Nat) : solidCount S = S ^ 3 - (S - 2) ^ 3 := by
  have hsub : (Finset.Ioo 0 (S - 1) ×ˢ Finset.Ioo 0 (S - 1) ×ˢ
      Finset.Ioo 0 (S - 1)) ⊆ Finset.range S ×ˢ Finset.range S ×ˢ Finset.range S := by
    intro p hp
    simp only [Finset.mem_product, Finset.mem_range, Finset.mem_Ioo] at hp ⊢
    omega
  have hcard : solidCount S =
      (Finset.range S ×ˢ Finset.range S ×ˢ Finset.range S).card -
        (Finset.Ioo 0 (S - 1) ×ˢ Finset.Ioo 0 (S - 1) ×ˢ Finset.Ioo 0 (S - 1)).card := by
    rw [solidCount, filter_solid_eq_sdiff, Finset.card_sdiff hsub]
  rw [hcard]
  simp only [Finset.card_product, Finset.card_range, Nat.card_Ioo]
  have h3 : S ^ 3 = S * (S * S) := by ring
  have h4 : (S - 2) ^ 3 = (S - 1 - 0 - 1) * ((S - 1 - 0 - 1) * (S - 1 - 0 - 1)) := by
    have : S - 1 - 0 - 1 = S - 2 := by omega
    rw [this]; ring
  rw [h3, h4]

/-- C1: a face `(x,y,z,f)` is emitted by the culler iff `(x,y,z)` is an
in-range solid block and the neighbour in direction `f` lies outside
`[0, S-1]` on some axis or is an air cell; no other face is emitted. -/
theorem cull_emits_iff_exposed (S : Nat) (c : Chunk) (x y z : Nat) (f : Face) :
    (x, y, z, f) ∈ cullChunk S c ↔
      x < S ∧ y < S ∧ z < S ∧ c x y z = true ∧ exposedSpec S c x y z f := by
  rw [mem_cullChunk]
  constructor
  · rintro ⟨hx, hy, hz, hc, hf⟩
    exact ⟨hx, hy, hz, hc, (faceExposed_iff_exposedSpec hx hy hz f).mp hf⟩
  · rintro ⟨hx, hy, hz, hc, hf⟩
    exact ⟨hx, hy, hz, hc, (faceExposed_iff_exposedSpec hx hy hz f).mpr hf⟩

/-- C2: the generator marks a cell solid iff some coordinate is `0` or
`S-1`, the solid count is `S^3 - (S-2)^3`, and for `S = 16` it is 1352. -/
theorem genChunk_shell_and_count (S : Nat) (hS : 3 ≤ S) :
    (∀ x y z, x < S → y < S → z < S →
        (genChunk S x y z = true ↔
          (x = 0 ∨ x = S - 1 ∨ y = 0 ∨ y = S - 1 ∨ z = 0 ∨ z = S - 1)))
    ∧ solidCount S = S ^ 3 - (S - 2) ^ 3
    ∧ solidCount 16 = 1352 := by
  refine ⟨?_, solidCount_eq S, ?_⟩
  · intro x y z _ _ _
    simp only [genChunk, Bool.or_eq_true, beq_iff_eq]
    tauto
  · rw [solidCount_eq 16]
    norm_num

/-- Witness for C2 at `S = 16`. -/
theorem genChunk_shell_and_count_witness : solidCount 16 = 1352 :=
  (genChunk_shell_and_count 16 (by norm_num)).2.2

lemma flatMap_const_nil {α β : Type} (l : List α) :
    l.flatMap (fun _ => ([] : List β)) = [] := by
  induction l with
  | nil => rfl
  | cons a t ih => simp [List.flatMap_cons, ih]

/-- C3: a solid block whose six neighbours are all in bounds and solid
emits no face, and a chunk that is entirely air emits no face at all. -/
theorem interior_block_and_air_chunk (S : Nat) (c : Chunk) :
    (∀ x y z, 0 < x → x + 1 < S → 0 < y → y + 1 < S → 0 < z → z + 1 < S →
        c (x - 1) y z = true → c (x + 1) y z = true →
        c x (y - 1) z = true → c x (y + 1) z = true →
        c x y (z - 1) = true → c x y (z + 1) = true →
        facesOf S c x y z = [])
    ∧ ((∀ x y z, c x y z = false) → cullChunk S c = []) := by
  constructor
  · intro x y z hx1 hx2 hy1 hy2 hz1 hz2 hnx hpx hny hpy hnz hpz
    have e1 : x ≠ 0 := by omega
    have e2 : x ≠ S - 1 := by omega
    have e3 : y ≠ 0 := by omega
    have e4 : y ≠ S - 1 := by omega
    have e5 : z ≠ 0 := by omega
    have e6 : z ≠ S - 1 := by omega
    simp [facesOf, hnx, hpx, hny, hpy, hnz, hpz, e1, e2, e3, e4, e5, e6]
  · intro hair
    simp only [cullChunk, hair, Bool.false_eq_true, if_false]
    rw [flatMap_const_nil, flatMap_const_nil, flatMap_const_nil]

/-- Witness for C3: the centre block of the `S = 3` shell emits nothing,
and a fully-air chunk emits nothing. -/
theorem interior_block_and_air_chunk_witness :
    facesOf 3 (genChunk 3) 1 1 1 = [] ∧ cullChunk 2 (fun _ _ _ => false) = [] :=
  ⟨(interior_block_and_air_chunk 3 (genChunk 3)).1 1 1 1 (by decide) (by decide)
      (by decide) (by decide) (by decide) (by decide) (by decide) (by decide)
      (by decide) (by decide) (by decide) (by decide),
   (interior_block_and_air_chunk 2 (fun _ _ _ => false)).2 (fun _ _ _ => rfl)⟩

/-- The three boundary-facing faces of a shell corner block. -/
def boundaryFaces (x y z : Nat) : List Face :=
  [if x = 0 then Face.negX else Face.posX,
   if y = 0 then Face.negY else Face.posY,
   if z = 0 then Face.negZ else Face.posZ]

/-- C4: in the hollow shell of dimension 16, a corner block (all three
coordinates in `{0, 15}`) emits exactly its 3 boundary-facing faces, and
its in-bounds neighbours are solid shell cells. -/
theorem corner_emits_three_faces (x y z : Nat)
    (hx : x = 0 ∨ x = 15) (hy : y = 0 ∨ y = 15) (hz : z = 0 ∨ z = 15) :
    facesOf 16 (genChunk 16) x y z = boundaryFaces x y z
    ∧ (facesOf 16 (genChunk 16) x y z).length = 3
    ∧ genChunk 16 (if x = 0 then 1 else 14) y z = true
    ∧ genChunk 16 x (if y = 0 then 1 else 14) z = true
    ∧ genChunk 16 x y (if z = 0 then 1 else 14) = true := by
  rcases hx with rfl | rfl <;> rcases hy with rfl | rfl <;> rcases hz with rfl | rfl <;>
    exact ⟨by decide, by decide, by decide, by decide, by decide⟩

/-- Witness for C4 at the corner `(0,0,0)`. -/
theorem corner_emits_three_faces_witness :
    ((0 : Nat) = 0 ∨ (0 : Nat) = 15)
    ∧ (facesOf 16 (genChunk 16) 0 0 0 = boundaryFaces 0 0 0
        ∧ (facesOf 16 (genChunk 16) 0 0 0).length = 3
        ∧ genChunk 16 (if (0 : Nat) = 0 then 1 else 14) 0 0 = true
        ∧ genChunk 16 0 (if (0 : Nat) = 0 then 1 else 14) 0 = true
        ∧ genChunk 16 0 0 (if (0 : Nat) = 0 then 1 else 14) = true) :=
  ⟨Or.inl rfl,
   corner_emits_three_faces 0 0 0 (Or.inl rfl) (Or.inl rfl) (Or.inl rfl)⟩

/-- The fixed 36-entry index buffer (main.cpp lines 197-204), six indices
per face in the order back, front, bottom, top, left, right. -/
def cubeIndices : List Nat :=
  [0, 1, 2, 2, 3, 0,
   4, 5, 6, 6, 7, 4,
   0, 1, 5, 5, 4, 0,
   2, 3, 7, 7, 6, 2,
   0, 3, 7, 7, 4, 0,
   1, 2, 6, 6, 5, 1]

/-- The index-buffer offset each face's draw call starts at
(the `glDrawElements` byte offsets of main.cpp lines 375-405, in units
of one index). -/
def faceIndexOffset : Face → Nat
  | .negZ => 0
  | .posZ => 6
  | .negY => 12
  | .posY => 18
  | .negX => 24
  | .posX => 30

/-- The 6 indices a face's draw call reads: the contiguous sub-range of
the index buffer starting at the face's offset. -/
def drawFaceIndices (f : Face) : List Nat :=
  (cubeIndices.drop (faceIndexOffset f)).take 6

/-- C5: the culler is deterministic in its occupancy input, tests and
emits faces in the fixed order -X, +X, -Y, +Y, -Z, +Z, and draws each
emitted face as the 6-index contiguous sub-range of the 36-entry index
buffer at offsets -X:24, +X:30, -Y:12, +Y:18, -Z:0, +Z:6 — never the
whole cube. -/
theorem culler_order_and_index_ranges (S : Nat) (c c2 : Chunk)
    (hcc : ∀ x y z, c x y z = c2 x y z) (x y z : Nat) :
    cullChunk S c = cullChunk S c2
    ∧ facesOf S c x y z = faceOrder.filter (faceExposed S c x y z)
    ∧ faceIndexOffset Face.negX = 24 ∧ faceIndexOffset Face.posX = 30
    ∧ faceIndexOffset Face.negY = 12 ∧ faceIndexOffset Face.posY = 18
    ∧ faceIndexOffset Face.negZ = 0 ∧ faceIndexOffset Face.posZ = 6
    ∧ (∀ f, (drawFaceIndices f).length = 6 ∧ drawFaceIndices f ≠ cubeIndices)
    ∧ cubeIndices.length = 36 := by
  have hceq : c = c2 := funext fun a => funext fun b => funext fun d => hcc a b d
  subst hceq
  refine ⟨rfl, facesOf_eq_filter S c x y z, rfl, rfl, rfl, rfl, rfl, rfl, ?_, rfl⟩
  intro f
  cases f <;> exact ⟨by decide, by decide⟩

/-- Witness for C5 on the hollow shell chunk. -/
theorem culler_order_and_index_ranges_witness :
    (∀ x y z, genChunk 16 x y z = genChunk 16 x y z)
    ∧ (cullChunk 16 (genChunk 16) = cullChunk 16 (genChunk 16)
        ∧ facesOf 16 (genChunk 16) 0 0 0 =
            faceOrder.filter (faceExposed 16 (genChunk 16) 0 0 0)
        ∧ faceIndexOffset Face.negX = 24 ∧ faceIndexOffset Face.posX = 30
        ∧ faceIndexOffset Face.negY = 12 ∧ faceIndexOffset Face.posY = 18
        ∧ faceIndexOffset Face.negZ = 0 ∧ faceIndexOffset Face.posZ = 6
        ∧ (∀ f, (drawFaceIndices f).length = 6 ∧ drawFaceIndices f ≠ cubeIndices)
        ∧ cubeIndices.length = 36) :=
  ⟨fun _ _ _ => rfl,
   culler_order_and_index_ranges 16 (genChunk 16) (genChunk 16)
     (fun _ _ _ => rfl) 0 0 0⟩

/-- Bounds-checked read of the occupancy array at an integer index,
`none` when any index leaves `[0, S-1]`. -/
def readCell (S : Nat) (c : Chunk) (x y z : Int) : Option Bool :=
  if 0 ≤ x ∧ x < (S : Int) ∧ 0 ≤ y ∧ y < (S : Int) ∧ 0 ≤ z ∧ z < (S : Int) then
    some (c x.toNat y.toNat z.toNat)
  else none

/-- The per-face visibility test with every neighbour read going through
the bounds-checked `readCell`; the boundary test short-circuits exactly
as the `||` in the source does, so the read is skipped on the boundary. -/
def faceExposedChecked (S : Nat) (c : Chunk) (x y z : Nat) : Face → Option Bool
  | .negX => if x == 0 then some true else
      (readCell S c ((x : Int) - 1) y z).map (fun b => !b)
  | .posX => if x == S - 1 then some true else
      (readCell S c ((x : Int) + 1) y z).map (fun b => !b)
  | .negY => if y == 0 then some true else
      (readCell S c x ((y : Int) - 1) z).map (fun b => !b)
  | .posY => if y == S - 1 then some true else
      (readCell S c x ((y : Int) + 1) z).map (fun b => !b)
  | .negZ => if z == 0 then some true else
      (readCell S c x y ((z : Int) - 1)).map (fun b => !b)
  | .posZ => if z == S - 1 then some true else
      (readCell S c x y ((z : Int) + 1)).map (fun b => !b)

/-- The per-block culler assembled from the checked face tests, `none`
when any neighbour read would be out of bounds. -/
def facesOfChecked (S : Nat) (c : Chunk) (x y z : Nat) : Option (List Face) := do
  let e1 ← faceExposedChecked S c x y z .negX
  let e2 ← faceExposedChecked S c x y z .posX
  let e3 ← faceExposedChecked S c x y z .negY
  let e4 ← faceExposedChecked S c x y z .posY
  let e5 ← faceExposedChecked S c x y z .negZ
  let e6 ← faceExposedChecked S c x y z .posZ
  return (if e1 then [Face.negX] else []) ++ (if e2 then [Face.posX] else []) ++
    (if e3 then [Face.negY] else []) ++ (if e4 then [Face.posY] else []) ++
    (if e5 then [Face.negZ] else []) ++ (if e6 then [Face.posZ] else [])

lemma faceExposedChecked_eq_some {S : Nat} {c : Chunk} {x y z : Nat}
    (hx : x < S) (hy : y < S) (hz : z < S) (f : Face) :
    faceExposedChecked S c x y z f = some (faceExposed S c x y z f) := by
  cases f
  case negX =>
    by_cases h0 : x = 0
    · subst h0; simp [faceExposedChecked, faceExposed]
    · have hb : (x == 0) = false := by simp [h0]
      simp only [faceExposedChecked, faceExposed, hb, Bool.false_or, if_false,
        readCell, if_pos (show (0 : Int) ≤ (x : Int) - 1 ∧ (x : Int) - 1 < S ∧
          0 ≤ (y : Int) ∧ (y : Int) < S ∧ 0 ≤ (z : Int) ∧ (z : Int) < S by omega)]
      simp [show ((x : Int) - 1).toNat = x - 1 from by omega]
  case posX =>
    by_cases h0 : x = S - 1
    · subst h0; simp [faceExposedChecked, faceExposed]
    · have hb : (x == S - 1) = false := by simp [h0]
      simp only [faceExposedChecked, faceExposed, hb, Bool.false_or, if_false,
        readCell, if_pos (show (0 : Int) ≤ (x : Int) + 1 ∧ (x : Int) + 1 < S ∧
          0 ≤ (y : Int) ∧ (y : Int) < S ∧ 0 ≤ (z : Int) ∧ (z : Int) < S by omega)]
      simp [show ((x : Int) + 1).toNat = x + 1 from by omega]
  case negY =>
    by_cases h0 : y = 0
    · subst h0; simp [faceExposedChecked, faceExposed]
    · have hb : (y == 0) = false := by simp [h0]
      simp only [faceExposedChecked, faceExposed, hb, Bool.false_or, if_false,
        readCell, if_pos (show (0 : Int) ≤ (x : Int) ∧ (x : Int) < S ∧
          0 ≤ (y : Int) - 1 ∧ (y : Int) - 1 < S ∧ 0 ≤ (z : Int) ∧ (z : Int) < S by omega)]
      simp [show ((y : Int) - 1).toNat = y - 1 from by omega]
  case posY =>
    by_cases h0 : y = S - 1
    · subst h0; simp [faceExposedChecked, faceExposed]
    · have hb : (y == S - 1) = false := by simp [h0]
      simp only [faceExposedChecked, faceExposed, hb, Bool.false_or, if_false,
        readCell, if_pos (show (0 : Int) ≤ (x : Int) ∧ (x : Int) < S ∧
          0 ≤ (y : Int) + 1 ∧ (y : Int) + 1 < S ∧ 0 ≤ (z : Int) ∧ (z : Int) < S by omega)]
      simp [show ((y : Int) + 1).toNat = y + 1 from by omega]
  case negZ =>
    by_cases h0 : z = 0
    · subst h0; simp [faceExposedChecked, faceExposed]
    · have hb : (z == 0) = false := by simp [h0]
      simp only [faceExposedChecked, faceExposed, hb, Bool.false_or, if_false,
        readCell, if_pos (show (0 : Int) ≤ (x : Int) ∧ (x : Int) < S ∧
          0 ≤ (y : Int) ∧ (y : Int) < S ∧ 0 ≤ (z : Int) - 1 ∧ (z : Int) - 1 < S by omega)]
      simp [show ((z : Int) - 1).toNat = z - 1 from by omega]
  case posZ =>
    by_cases h0 : z = S - 1
    · subst h0; simp [faceExposedChecked, faceExposed]
    · have hb : (z == S - 1) = false := by simp [h0]
      simp only [faceExposedChecked, faceExposed, hb, Bool.false_or, if_false,
        readCell, if_pos (show (0 : Int) ≤ (x : Int) ∧ (x : Int) < S ∧
          0 ≤ (y : Int) ∧ (y : Int) < S ∧ 0 ≤ (z : Int) + 1 ∧ (z : Int) + 1 < S by omega)]
      simp [show ((z : Int) + 1).toNat = z + 1 from by omega]

/-- C10: for an in-range block every neighbour read of the culler is
guarded by the matching boundary test, so the bounds-checked culler
never reaches the out-of-bounds branch and agrees with the direct one. -/
theorem checked_culler_never_out_of_bounds (S : Nat) (c : Chunk) (x y z : Nat)
    (hx : x < S) (hy : y < S) (hz : z < S) :
    facesOfChecked S c x y z = some (facesOf S c x y z) := by
  simp only [facesOfChecked, faceExposedChecked_eq_some hx hy hz,
    Option.bind_eq_bind, Option.some_bind, facesOf, faceExposed]
  rfl

/-- Witness for C10 on a single-cell all-solid chunk. -/
theorem checked_culler_never_out_of_bounds_witness :
    (0 : Nat) < 1 ∧ facesOfChecked 1 (fun _ _ _ => true) 0 0 0 =
      some (facesOf 1 (fun _ _ _ => true) 0 0 0) :=
  ⟨by decide,
   checked_culler_never_out_of_bounds 1 (fun _ _ _ => true) 0 0 0
     (by decide) (by decide) (by decide)⟩

/-! ### Frustum culler

`isChunkInViewFrustum` (main.cpp lines 646-672) over exact rationals in
place of machine floats: 3- and 4-component vectors, 4×4 matrices in
rows, and the corner-in-clip-space test. -/

/-- A 3-component vector (`glm::vec3`) over ℚ. -/
structure Vec3 where
  x : ℚ
  y : ℚ
  z : ℚ
deriving DecidableEq

/-- A 4-component vector (`glm::vec4`) over ℚ. -/
structure Vec4 where
  x : ℚ
  y : ℚ
  z : ℚ
  w : ℚ
deriving DecidableEq

/-- A 4×4 matrix (`glm::mat4`) over ℚ, stored as its four rows. -/
structure Mat4 where
  r0 : Vec4
  r1 : Vec4
  r2 : Vec4
  r3 : Vec4
deriving DecidableEq

def Vec4.dot (a b : Vec4) : ℚ :=
  a.x * b.x + a.y * b.y + a.z * b.z + a.w * b.w

/-- Matrix-vector product `m * v`. -/
def Mat4.mulVec (m : Mat4) (v : Vec4) : Vec4 :=
  ⟨m.r0.dot v, m.r1.dot v, m.r2.dot v, m.r3.dot v⟩

def Mat4.col0 (m : Mat4) : Vec4 := ⟨m.r0.x, m.r1.x, m.r2.x, m.r3.x⟩
def Mat4.col1 (m : Mat4) : Vec4 := ⟨m.r0.y, m.r1.y, m.r2.y, m.r3.y⟩
def Mat4.col2 (m : Mat4) : Vec4 := ⟨m.r0.z, m.r1.z, m.r2.z, m.r3.z⟩
def Mat4.col3 (m : Mat4) : Vec4 := ⟨m.r0.w, m.r1.w, m.r2.w, m.r3.w⟩

/-- Matrix product `a * b`. -/
def Mat4.mulMat (a b : Mat4) : Mat4 :=
  ⟨⟨a.r0.dot b.col0, a.r0.dot b.col1, a.r0.dot b.col2, a.r0.dot b.col3⟩,
   ⟨a.r1.dot b.col0, a.r1.dot b.col1, a.r1.dot b.col2, a.r1.dot b.col3⟩,
   ⟨a.r2.dot b.col0, a.r2.dot b.col1, a.r2.dot b.col2, a.r2.dot b.col3⟩,
   ⟨a.r3.dot b.col0, a.r3.dot b.col1, a.r3.dot b.col2, a.r3.dot b.col3⟩⟩

/-- The identity matrix (`glm::mat4(1.0f)`). -/
def Mat4.id : Mat4 :=
  ⟨⟨1, 0, 0, 0⟩, ⟨0, 1, 0, 0⟩, ⟨0, 0, 1, 0⟩, ⟨0, 0, 0, 1⟩⟩

def Vec3.add (a b : Vec3) : Vec3 := ⟨a.x + b.x, a.y + b.y, a.z + b.z⟩

/-- `glm::vec4(v, 1.0f)`. -/
def Vec3.toClip (v : Vec3) : Vec4 := ⟨v.x, v.y, v.z, 1⟩

/-- The 8 corners of a chunk's bounding box, in the order the source
fills `corners[0..7]` (main.cpp lines 649-656). -/
def chunkCorners (chunkPos : Vec3) (chunkSize : ℚ) : List Vec3 :=
  [chunkPos,
   chunkPos.add ⟨chunkSize, 0, 0⟩,
   chunkPos.add ⟨0, chunkSize, 0⟩,
   chunkPos.add ⟨0, 0, chunkSize⟩,
   chunkPos.add ⟨chunkSize, chunkSize, 0⟩,
   chunkPos.add ⟨chunkSize, 0, chunkSize⟩,
   chunkPos.add ⟨0, chunkSize, chunkSize⟩,
   chunkPos.add ⟨chunkSize, chunkSize, chunkSize⟩]

/-- The per-corner clip-space containment test of main.cpp lines 663-665. -/
def insideClip (v : Vec4) : Bool :=
  decide (-v.w < v.x) && decide (v.x < v.w) &&
  decide (-v.w < v.y) && decide (v.y < v.w) &&
  decide (-v.w < v.z) && decide (v.z < v.w)

/-- `isChunkInViewFrustum` (main.cpp lines 646-672): return `true` as
soon as some corner, taken to clip space by `projection * view`, passes
the containment test; `false` when none does. -/
def isChunkInViewFrustum (chunkPos : Vec3) (view projection : Mat4)
    (chunkSize : ℚ) : Bool :=
  (chunkCorners chunkPos chunkSize).any fun corner =>
    insideClip ((projection.mulMat view).mulVec corner.toClip)

/-- Clip-space image of a corner under `projection * view`. -/
def clipOf (view projection : Mat4) (corner : Vec3) : Vec4 :=
  (projection.mulMat view).mulVec corner.toClip

/-- A corner's clip-space image lies strictly inside the canonical view
volume on all three axes. -/
def cornerInside (view projection : Mat4) (corner : Vec3) : Prop :=
  -(clipOf view projection corner).w < (clipOf view projection corner).x ∧
  (clipOf view projection corner).x < (clipOf view projection corner).w ∧
  -(clipOf view projection corner).w < (clipOf view projection corner).y ∧
  (clipOf view projection corner).y < (clipOf view projection corner).w ∧
  -(clipOf view projection corner).w < (clipOf view projection corner).z ∧
  (clipOf view projection corner).z < (clipOf view projection corner).w

instance (view projection : Mat4) (corner : Vec3) :
    Decidable (cornerInside view projection corner) := by
  unfold cornerInside
  infer_instance

lemma frustum_any_iff (chunkPos : Vec3) (view projection : Mat4)
    (chunkSize : ℚ) :
    isChunkInViewFrustum chunkPos view projection chunkSize = true ↔
      ∃ corner ∈ chunkCorners chunkPos chunkSize,
        cornerInside view projection corner := by
  simp only [isChunkInViewFrustum, List.any_eq_true, insideClip, cornerInside,
    clipOf, Bool.and_eq_true, decide_eq_true_eq]
  constructor
  · rintro ⟨corner, hmem, h⟩
    exact ⟨corner, hmem, h.1.1.1.1.1, h.1.1.1.1.2, h.1.1.1.2, h.1.1.2, h.1.2, h.2⟩
  · rintro ⟨corner, hmem, h1, h2, h3, h4, h5, h6⟩
    exact ⟨corner, hmem, ⟨⟨⟨⟨⟨h1, h2⟩, h3⟩, h4⟩, h5⟩, h6⟩⟩

/-- C6: the frustum culler returns `true` iff some box corner's
clip-space image `(x, y, z, w)` under `projection * view` satisfies
`-w < x < w`, `-w < y < w` and `-w < z < w` simultaneously. -/
theorem frustum_true_iff_corner_inside (chunkPos : Vec3) (view projection : Mat4)
    (chunkSize : ℚ) :
    isChunkInViewFrustum chunkPos view projection chunkSize = true ↔
      ∃ corner ∈ chunkCorners chunkPos chunkSize,
        cornerInside view projection corner :=
  frustum_any_iff chunkPos view projection chunkSize

/-- C7: a box all of whose 8 corners are strictly inside the canonical
view volume is reported visible — no false negative for such boxes. -/
theorem frustum_no_false_negative_inside (chunkPos : Vec3) (view projection : Mat4)
    (chunkSize : ℚ)
    (hin : ∀ corner ∈ chunkCorners chunkPos chunkSize,
      cornerInside view projection corner) :
    isChunkInViewFrustum chunkPos view projection chunkSize = true := by
  rw [frustum_any_iff]
  exact ⟨chunkPos, by simp [chunkCorners], hin chunkPos (by simp [chunkCorners])⟩

/-- A diagonal test projection that scales clip `w` to 2, putting the
unit box at the origin strictly inside the view volume. -/
def Mat4.diagW2 : Mat4 :=
  ⟨⟨1, 0, 0, 0⟩, ⟨0, 1, 0, 0⟩, ⟨0, 0, 1, 0⟩, ⟨0, 0, 0, 2⟩⟩

/-- Witness for C7: the unit box at the origin, identity view and the
`w = 2` diagonal projection: all corners inside, culler says visible. -/
theorem frustum_no_false_negative_inside_witness :
    (∀ corner ∈ chunkCorners ⟨0, 0, 0⟩ 1,
        cornerInside Mat4.id Mat4.diagW2 corner)
    ∧ isChunkInViewFrustum ⟨0, 0, 0⟩ Mat4.id Mat4.diagW2 1 = true :=
  ⟨by
    intro corner hmem
    simp only [chunkCorners, Vec3.add, List.mem_cons, List.mem_singleton,
      List.not_mem_nil, or_false] at hmem
    rcases hmem with rfl | rfl | rfl | rfl | rfl | rfl | rfl | rfl <;>
      norm_num [cornerInside, clipOf, Mat4.mulMat, Mat4.mulVec, Vec4.dot,
        Mat4.id, Mat4.diagW2, Mat4.col0, Mat4.col1, Mat4.col2, Mat4.col3,
        Vec3.toClip],
   frustum_no_false_negative_inside ⟨0, 0, 0⟩ Mat4.id Mat4.diagW2 1
     (by
      intro corner hmem
      simp only [chunkCorners, Vec3.add, List.mem_cons, List.mem_singleton,
        List.not_mem_nil, or_false] at hmem
      rcases hmem with rfl | rfl | rfl | rfl | rfl | rfl | rfl | rfl <;>
        norm_num [cornerInside, clipOf, Mat4.mulMat, Mat4.mulVec, Vec4.dot,
          Mat4.id, Mat4.diagW2, Mat4.col0, Mat4.col1, Mat4.col2, Mat4.col3,
          Vec3.toClip])⟩

/-! ### Camera input callbacks

`mouse_callback` (main.cpp lines 507-541) and `scroll_callback`
(main.cpp lines 544-552), with the global float state carried
explicitly and floats embedded as rationals. -/

/-- The globals `yaw`, `pitch`, `lastX`, `lastY`, `firstMouse` that
`mouse_callback` reads and writes. -/
structure MouseState where
  yaw : ℚ
  pitch : ℚ
  lastX : ℚ
  lastY : ℚ
  firstMouse : Bool
deriving DecidableEq

/-- The initial global camera-orientation state (main.cpp lines 28-34):
`yaw = -90`, `pitch = -10`, last position at the window centre,
`firstMouse = true`. -/
def initialMouseState : MouseState :=
  ⟨-90, -10, 400, 300, true⟩

/-- The mouse sensitivity constant (main.cpp line 523). -/
def sensitivity : ℚ := 1 / 10

/-- One run of `mouse_callback` (main.cpp lines 507-541): seed the last
position on the first sample, accumulate the scaled offsets into yaw
and pitch, then clamp pitch to `[-89, 89]`. -/
def mouse_callback (s : MouseState) (xpos ypos : ℚ) : MouseState :=
  let lastX0 := if s.firstMouse then xpos else s.lastX
  let lastY0 := if s.firstMouse then ypos else s.lastY
  let xoffset := (xpos - lastX0) * sensitivity
  let yoffset := (lastY0 - ypos) * sensitivity
  let yaw1 := s.yaw + xoffset
  let pitch1 := s.pitch + yoffset
  let pitch2 := if pitch1 > 89 then 89 else pitch1
  let pitch3 := if pitch2 < -89 then -89 else pitch2
  ⟨yaw1, pitch3, xpos, ypos, false⟩

/-- The pitch after applying a sequence of mouse samples from the
initial global state. -/
def pitchAfter (events : List (ℚ × ℚ)) : ℚ :=
  (events.foldl (fun s e => mouse_callback s e.1 e.2) initialMouseState).pitch

lemma mouse_callback_pitch_le (s : MouseState) (xpos ypos : ℚ) :
    -89 ≤ (mouse_callback s xpos ypos).pitch ∧
      (mouse_callback s xpos ypos).pitch ≤ 89 := by
  simp only [mouse_callback]
  split_ifs with h1 h2 h3 <;> constructor <;> linarith

lemma foldl_mouse_pitch_le (events : List (ℚ × ℚ)) (s : MouseState)
    (h : -89 ≤ s.pitch ∧ s.pitch ≤ 89) :
    -89 ≤ (events.foldl (fun t e => mouse_callback t e.1 e.2) s).pitch ∧
      (events.foldl (fun t e => mouse_callback t e.1 e.2) s).pitch ≤ 89 := by
  induction events generalizing s with
  | nil => exact h
  | cons e t ih =>
    rw [List.foldl_cons]
    exact ih _ (mouse_callback_pitch_le s e.1 e.2)

/-- C8: after every `mouse_callback` update the pitch lies in
`[-89, 89]`, whatever the incoming state; hence after any nonempty
sequence of mouse samples from the initial state (pitch `-10`) the
pitch lies in `[-89, 89]`. -/
theorem pitch_clamped (s : MouseState) (xpos ypos : ℚ)
    (events : List (ℚ × ℚ)) (hne : events ≠ []) :
    (-89 ≤ (mouse_callback s xpos ypos).pitch ∧
      (mouse_callback s xpos ypos).pitch ≤ 89)
    ∧ (-89 ≤ pitchAfter events ∧ pitchAfter events ≤ 89) := by
  refine ⟨mouse_callback_pitch_le s xpos ypos, ?_⟩
  rw [pitchAfter]
  obtain ⟨e, rest, rfl⟩ := List.exists_cons_of_ne_nil hne
  rw [List.foldl_cons]
  exact foldl_mouse_pitch_le rest _
    (mouse_callback_pitch_le initialMouseState e.1 e.2)

/-- Witness for C8: one enormous upward sweep saturates at 89. -/
theorem pitch_clamped_witness :
    ([((0 : ℚ), -(10 ^ 9))] ≠ ([] : List (ℚ × ℚ)))
    ∧ ((-89 ≤ (mouse_callback initialMouseState 0 (-(10 ^ 9))).pitch ∧
          (mouse_callback initialMouseState 0 (-(10 ^ 9))).pitch ≤ 89)
        ∧ (-89 ≤ pitchAfter [((0 : ℚ), -(10 ^ 9))] ∧
            pitchAfter [((0 : ℚ), -(10 ^ 9))] ≤ 89)) :=
  ⟨by simp,
   pitch_clamped initialMouseState 0 (-(10 ^ 9)) [((0 : ℚ), -(10 ^ 9))] (by simp)⟩

/-- One run of `scroll_callback` (main.cpp lines 544-552): subtract the
scroll delta while the field of view is in `[1, 90]`, then clamp at
both ends. -/
def scroll_callback (fov yoffset : ℚ) : ℚ :=
  let fov1 := if 1 ≤ fov ∧ fov ≤ 90 then fov - yoffset else fov
  let fov2 := if fov1 ≤ 1 then 1 else fov1
  if 90 ≤ fov2 then 90 else fov2

/-- The field of view after a sequence of scroll deltas from the
initial value 45 (main.cpp line 32). -/
def fovAfter (deltas : List ℚ) : ℚ :=
  deltas.foldl scroll_callback 45

lemma scroll_callback_mem_Icc (fov yoffset : ℚ) :
    1 ≤ scroll_callback fov yoffset ∧ scroll_callback fov yoffset ≤ 90 := by
  simp only [scroll_callback]
  split_ifs <;> constructor <;> linarith

lemma foldl_scroll_mem_Icc (deltas : List ℚ) (fov : ℚ)
    (h1 : 1 ≤ fov) (h90 : fov ≤ 90) :
    1 ≤ deltas.foldl scroll_callback fov ∧
      deltas.foldl scroll_callback fov ≤ 90 := by
  induction deltas generalizing fov with
  | nil => exact ⟨h1, h90⟩
  | cons d t ih =>
    rw [List.foldl_cons]
    exact ih _ (scroll_callback_mem_Icc fov d).1 (scroll_callback_mem_Icc fov d).2

/-- C9: starting from a field of view in `[1, 90]`, one scroll event
sets it to the previous value minus the delta clamped to `[1, 90]`;
and from the initial value 45 any sequence of scroll deltas keeps the
field of view within `[1, 90]`. -/
theorem fov_clamped (fov yoffset : ℚ) (h1 : 1 ≤ fov) (h90 : fov ≤ 90)
    (deltas : List ℚ) :
    scroll_callback fov yoffset = max 1 (min 90 (fov - yoffset))
    ∧ (1 ≤ fovAfter deltas ∧ fovAfter deltas ≤ 90) := by
  constructor
  · simp only [scroll_callback, if_pos (And.intro h1 h90)]
    rcases le_or_lt (fov - yoffset) 1 with hlo | hlo
    · rw [if_pos hlo, if_neg (by norm_num), min_eq_right (by linarith),
        max_eq_left hlo]
    · rw [if_neg (show ¬(fov - yoffset ≤ 1) from by linarith)]
      rcases le_or_lt 90 (fov - yoffset) with hhi | hhi
      · rw [if_pos hhi, min_eq_left hhi, max_eq_right (by norm_num)]
      · rw [if_neg (show ¬(90 ≤ fov - yoffset) from by linarith),
          min_eq_right (by linarith), max_eq_right (by linarith)]
  · exact foldl_scroll_mem_Icc deltas 45 (by norm_num) (by norm_num)

/-- Witness for C9: a scroll of `-100` from the initial 45 saturates
the field of view at 90. -/
theorem fov_clamped_witness :
    ((1 : ℚ) ≤ 45 ∧ (45 : ℚ) ≤ 90)
    ∧ (scroll_callback 45 (-100) = max 1 (min 90 (45 - (-100)))
        ∧ (1 ≤ fovAfter [-100] ∧ fovAfter [-100] ≤ 90)) :=
  ⟨by norm_num, fov_clamped 45 (-100) (by norm_num) (by norm_num) [-100]⟩
